import Mathlib

/-!
Verification of `watch_takanawa_wharf.py`, a single-run batch job that
checks a restaurant reservation site for open slots and pushes a
notification.  The pure functions (`within_window`, `sec_to_hm`,
`build_timetable_url`, `extract_available_times`) are embedded directly;
the effectful ones (`fetch_timetable`, `line_push`, `main`) are embedded
as functions from the outcomes of their collaborator calls (HTTP
responses) to the observable events they produce.
-/

namespace Watcher

/-! ## Window gate (`within_window`) -/

/-- A zone-local wall-clock time, reduced to the one field the program
reads: `datetime.hour`, the local hour-of-day in `[0, 24)`. -/
structure LocalTime where
  hour : Nat
  hour_lt : hour < 24

/-- `within_window(now, start_h, end_h)`: `start_h <= now.hour < end_h`
(Python chained comparison on ints). -/
def within_window (now : LocalTime) (start_h end_h : Int) : Bool :=
  decide (start_h ≤ (now.hour : Int) ∧ (now.hour : Int) < end_h)

/-! ## Time formatting (`sec_to_hm`) -/

/-- Python's `f"{n:02d}"` for a non-negative int: decimal digits,
left-padded with `0` to width 2 (a single digit gets one leading zero,
anything longer is printed as-is). -/
def pad2 (n : Nat) : String :=
  if n < 10 then "0" ++ toString n else toString n

/-- `sec_to_hm(sec)`: seconds from midnight to `"HH:MM"`;
`h = sec // 3600`, `m = (sec % 3600) // 60`. -/
def sec_to_hm (sec : Nat) : String :=
  pad2 (sec / 3600) ++ ":" ++ pad2 (sec % 3600 / 60)

/-! ## Timetable URL builder (`build_timetable_url`) -/

/-- The three components of `urllib.parse.urlparse` that
`build_timetable_url` reads. -/
structure ParsedUrl where
  scheme : String
  netloc : String
  path : String

/-- Python's `str.split("/")` (one-character separator): split at every
occurrence of `/`, keeping empty pieces (`"".split("/") == [""]`). -/
def pySplitSlash (s : String) : List String :=
  (s.toList.splitOn '/').map String.mk

/-- `build_timetable_url(reserve_url)`: split the path on `"/"`, find the
first `"shops"` segment (`list.index` raises `ValueError` when absent),
take the next segment (`parts[i+1]` raises `IndexError` when out of
range); both exceptions are caught and re-raised as
`RuntimeError(f"Unexpected reserve URL path: {path}")`.  On success the
result is `{scheme}://{netloc}/ja/shops/{shop_id}/available/timetable`. -/
def build_timetable_url (u : ParsedUrl) : Except String String :=
  let parts := pySplitSlash u.path
  match parts.findIdx? (fun s => s == "shops") with
  | none => Except.error ("Unexpected reserve URL path: " ++ u.path)
  | some i =>
    match parts[i + 1]? with
    | none => Except.error ("Unexpected reserve URL path: " ++ u.path)
    | some shop_id =>
      Except.ok (u.scheme ++ "://" ++ u.netloc ++ "/ja/shops/" ++ shop_id ++ "/available/timetable")

/-! ## Availability fetcher (`fetch_timetable`) -/

/-- A JSON value, the possible results of `requests.Response.json()`. -/
inductive JValue where
  | null : JValue
  | jbool (b : Bool) : JValue
  | jnum (n : Int) : JValue
  | jstr (s : String) : JValue
  | jarr (xs : List JValue) : JValue
  | jobj (kvs : List (String × JValue)) : JValue

/-- Whether a JSON value is an object (a Python `dict`). -/
def JValue.isObj : JValue → Bool
  | .jobj _ => true
  | _ => false

/-- An HTTP response as `fetch_timetable` observes it: the status code,
and the body represented by its JSON parse (`none` when the body is not
valid JSON, in which case `resp.json()` raises). -/
structure HttpResponse where
  status : Nat
  jsonBody : Option JValue

/-- The error kinds `fetch_timetable` can raise: `raise_for_status` for a
4xx/5xx status, or the JSON decode error from `resp.json()`. -/
inductive FetchError where
  | httpStatus (code : Nat) : FetchError
  | parseError : FetchError
deriving DecidableEq

/-- `fetch_timetable`, from the response of its one HTTP call:
`resp.raise_for_status()` (raises iff `400 <= status < 600`), then
`return resp.json()` — the parsed value is returned as-is, whatever its
JSON type; only an invalid body raises a parse error. -/
def fetch_timetable (resp : HttpResponse) : Except FetchError JValue :=
  if 400 ≤ resp.status ∧ resp.status < 600 then
    Except.error (FetchError.httpStatus resp.status)
  else
    match resp.jsonBody with
    | none => Except.error FetchError.parseError
    | some v => Except.ok v

/-! ## Slot filter (`extract_available_times`) -/

/-- One slot entry of the timetable JSON, reduced to the two keys the
program reads; each may be absent (`slot.get` returns `None` / the
default). -/
structure SlotEntry where
  seconds : Option Int
  available : Option Bool
deriving DecidableEq

/-- The `data` object of the timetable JSON: an optional `slots` mapping,
date string → (slot-id → entry).  Mappings are insertion-ordered
association lists, as Python dicts are. -/
structure TimetableData where
  slots : Option (List (String × List (String × SlotEntry)))
deriving DecidableEq

/-- A parsed timetable response: an optional top-level `data` object. -/
structure TimetableResponse where
  data : Option TimetableData
deriving DecidableEq

/-- `data.get("data", {}).get("slots", {})`. -/
def slotsByDate (resp : TimetableResponse) :
    List (String × List (String × SlotEntry)) :=
  match resp.data with
  | none => []
  | some d => d.slots.getD []

/-- `slots_by_date.get(target_date, {})`. -/
def daySlots (resp : TimetableResponse) (target_date : String) :
    List (String × SlotEntry) :=
  ((slotsByDate resp).lookup target_date).getD []

/-- The loop body of `extract_available_times`: skip an entry with no
`seconds`; keep its seconds iff `start_sec <= seconds < end_sec` and
`available` (defaulting to `False`) holds. -/
def slotFilter (start_sec end_sec : Int) (slot : SlotEntry) : Option Int :=
  match slot.seconds with
  | none => none
  | some s =>
    if start_sec ≤ s ∧ s < end_sec ∧ slot.available.getD false then some s else none

/-- `extract_available_times(data, target_date, slot_start_hour,
slot_end_hour)`: filter the target date's slots and return the kept
seconds values sorted ascending (`sorted(result)`, modelled by a stable
insertion sort). -/
def extract_available_times (data : TimetableResponse) (target_date : String)
    (slot_start_hour slot_end_hour : Int) : List Int :=
  let start_sec := slot_start_hour * 3600
  let end_sec := slot_end_hour * 3600
  let result := (daySlots data target_date).filterMap
    (fun kv => slotFilter start_sec end_sec kv.2)
  List.insertionSort (· ≤ ·) result

/-- The spec's worked example: slots `a ↦ (64800, true)`,
`b ↦ (72000, false)`, `c ↦ (64800, true)` for date `2025-12-24`. -/
def exampleResponse : TimetableResponse :=
  ⟨some ⟨some [("2025-12-24",
    [("a", ⟨some 64800, some true⟩),
     ("b", ⟨some 72000, some false⟩),
     ("c", ⟨some 64800, some true⟩)])]⟩⟩

/-! ## Notifier (`line_push`) -/

/-- An observable step of `line_push`: a line printed to stdout, or the
single HTTP POST to the push endpoint (with its authorization header,
recipient and message text). -/
inductive PushEvent where
  | printLine (s : String) : PushEvent
  | httpPost (url : String) (auth : String) (toUser : String) (text : String) : PushEvent
deriving DecidableEq

/-- Whether an event is the network call. -/
def PushEvent.isPost : PushEvent → Bool
  | .httpPost _ _ _ _ => true
  | _ => false

/-- The outcome of the POST inside `line_push`, when one is attempted: a
response with status code and body text, or a transport-level exception
with its message. -/
inductive PostOutcome where
  | response (status : Nat) (text : String) : PostOutcome
  | exn (msg : String) : PostOutcome
deriving DecidableEq

/-- `line_push(message, token, to_user_id)` as the list of events it
produces, given the outcome of its POST.  `if not token or not
to_user_id`: print the warning prefix and the message, return (no
network call).  Otherwise POST; a status `>= 300` prints a warning with
the status and body, an exception is caught and its message printed as a
warning.  The model is a total function into an event list: no
exception escapes `line_push`. -/
def line_push (message token to_user_id : String) (post : PostOutcome) : List PushEvent :=
  if token = "" ∨ to_user_id = "" then
    [PushEvent.printLine "[WARN] LINE credentials not set; printing message instead:",
     PushEvent.printLine message]
  else
    PushEvent.httpPost "https://api.line.me/v2/bot/message/push" ("Bearer " ++ token)
        to_user_id message ::
      match post with
      | .response status text =>
        if 300 ≤ status then
          [PushEvent.printLine ("[WARN] LINE push failed: " ++ toString status ++ " " ++ text)]
        else []
      | .exn e => [PushEvent.printLine ("[WARN] LINE push exception: " ++ e)]

/-! ## Orchestration (the tail of `main`) -/

/-- Python's `sep.join(strs)`. -/
def pyJoin (sep : String) : List String → String
  | [] => ""
  | [a] => a
  | a :: b :: rest => a ++ sep ++ pyJoin sep (b :: rest)

/-- The per-category loop body of `main`, folded over the accumulator
`(any_available, lines_for_message)`.  Each category comes with the
result of its fetch-and-filter step: a caught exception's message
(`except Exception: ... continue`, accumulator unchanged) or the
extracted times.  A nonempty times list sets `any_available` and appends
the category's `- {label}: {times}` line; an empty list changes
nothing. -/
def categoryStep (acc : Bool × List String) (entry : String × Except String (List Int)) :
    Bool × List String :=
  match entry.2 with
  | Except.error _ => acc
  | Except.ok times =>
    if times.isEmpty then acc
    else (true, acc.2 ++ ["- " ++ entry.1 ++ ": " ++
      pyJoin ", " (times.map (fun s => sec_to_hm s.toNat))])

/-- How a run of `main` ends after the category loop: a message handed to
the notifier (`line_push`), or the log line stating that nothing was
found (no delivery attempted). -/
inductive MainResult where
  | pushed (message : String) : MainResult
  | noSlots (logLine : String) : MainResult
deriving DecidableEq

/-- The tail of `main`: fold the category loop from
`(False, [header])`; if any category had availability, append a blank
line and the reservation URL and hand the joined message to the
notifier, else log `no slots found; no LINE push` and deliver
nothing. -/
def main_outcome (header reserve_url : String)
    (outcomes : List (String × Except String (List Int))) : MainResult :=
  let acc := outcomes.foldl categoryStep (false, [header])
  if acc.1 then MainResult.pushed (pyJoin "\n" (acc.2 ++ ["", reserve_url]))
  else MainResult.noSlots "no slots found; no LINE push"

/-- A category outcome with zero available slots: a caught fetch failure
or an empty filter result. -/
def categoryNoAvail : Except String (List Int) → Prop
  | Except.error _ => True
  | Except.ok times => times = []

end Watcher

namespace Watcher

/-! ## Theorems: window gate and formatting -/

/-- C4: `within_window now s e` is true iff `s ≤ hour(now) < e`; at the
boundaries an hour equal to `e` gives `false`, and (within a non-empty
window) an hour equal to `s` gives `true`; when `e ≤ s` the window is
empty and every hour gives `false`. -/
theorem within_window_spec (now : LocalTime) (s e : Int) :
    (within_window now s e = true ↔ s ≤ (now.hour : Int) ∧ (now.hour : Int) < e) ∧
    ((now.hour : Int) = e → within_window now s e = false) ∧
    (e ≤ s → within_window now s e = false) ∧
    ((now.hour : Int) = s → s < e → within_window now s e = true) := by
  unfold within_window
  refine ⟨decide_eq_true_iff, fun h => ?_, fun h => ?_, fun h1 h2 => ?_⟩
  · rw [decide_eq_false_iff_not]; omega
  · rw [decide_eq_false_iff_not]; omega
  · rw [decide_eq_true_iff]; omega

/-- Concrete check of `within_window_spec`: hour 18 is inside `[18, 20)`,
hour 20 is not inside `[18, 20)`, and the empty window `[20, 18)`
rejects hour 19. -/
theorem within_window_spec_witness :
    within_window ⟨18, by decide⟩ 18 20 = true ∧
    within_window ⟨20, by decide⟩ 18 20 = false ∧
    within_window ⟨19, by decide⟩ 20 18 = false :=
  ⟨(within_window_spec ⟨18, by decide⟩ 18 20).2.2.2 (by decide) (by decide),
   (within_window_spec ⟨20, by decide⟩ 18 20).2.1 (by decide),
   (within_window_spec ⟨19, by decide⟩ 20 18).2.2.1 (by decide)⟩

/-- C2: `build_timetable_url` fails with the malformed-URL error naming
the offending path iff the path (split on `/`) has no `shops` segment
followed by a further segment; otherwise it returns
`{scheme}://{netloc}/ja/shops/{id}/available/timetable` where `id` is
the segment immediately after the first `shops` segment. -/
theorem build_timetable_url_spec (u : ParsedUrl) :
    (build_timetable_url u = Except.error ("Unexpected reserve URL path: " ++ u.path) ↔
      ¬ ∃ i, (pySplitSlash u.path)[i]? = some "shops" ∧ i + 1 < (pySplitSlash u.path).length) ∧
    (∀ i sid, (∀ j, j < i → (pySplitSlash u.path)[j]? ≠ some "shops") →
      (pySplitSlash u.path)[i]? = some "shops" →
      (pySplitSlash u.path)[i + 1]? = some sid →
      build_timetable_url u =
        Except.ok (u.scheme ++ "://" ++ u.netloc ++ "/ja/shops/" ++ sid ++ "/available/timetable")) := by
  constructor
  · cases hfind : (pySplitSlash u.path).findIdx? (fun s => s == "shops") with
    | none =>
      have hno : ∀ x ∈ pySplitSlash u.path, ¬ x = "shops" := by
        have := List.findIdx?_eq_none_iff.mp hfind
        intro x hx
        simpa using this x hx
      have hbuild : build_timetable_url u =
          Except.error ("Unexpected reserve URL path: " ++ u.path) := by
        simp [build_timetable_url, hfind]
      rw [hbuild]
      simp only [true_iff, iff_true_intro rfl]
      rintro ⟨i, hi, -⟩
      obtain ⟨hlt, hget⟩ := List.getElem?_eq_some_iff.mp hi
      exact hno _ (List.getElem_mem hlt) hget
    | some i =>
      obtain ⟨hlt, hpi, hmin⟩ := List.findIdx?_eq_some_iff_getElem.mp hfind
      have hpi' : (pySplitSlash u.path)[i] = "shops" := by simpa using hpi
      cases hnext : (pySplitSlash u.path)[i + 1]? with
      | none =>
        have hbuild : build_timetable_url u =
            Except.error ("Unexpected reserve URL path: " ++ u.path) := by
          simp [build_timetable_url, hfind, hnext]
        rw [hbuild]
        simp only [true_iff, iff_true_intro rfl]
        have hlen : (pySplitSlash u.path).length ≤ i + 1 :=
          List.getElem?_eq_none_iff.mp hnext
        rintro ⟨j, hj, hjlt⟩
        obtain ⟨hjlen, hjget⟩ := List.getElem?_eq_some_iff.mp hj
        have hji : j < i := by omega
        have := hmin j hji
        simp [hjget] at this
      | some sid =>
        have hbuild : build_timetable_url u =
            Except.ok (u.scheme ++ "://" ++ u.netloc ++ "/ja/shops/" ++ sid ++
              "/available/timetable") := by
          simp [build_timetable_url, hfind, hnext]
        rw [hbuild]
        constructor
        · intro h
          exact absurd h (by simp)
        · intro hne
          obtain ⟨hlt2, -⟩ := List.getElem?_eq_some_iff.mp hnext
          exact (hne ⟨i, List.getElem?_eq_some_iff.mpr ⟨hlt, hpi'⟩, hlt2⟩).elim
  · intro i sid hminH hi hnext
    obtain ⟨hilt, higet⟩ := List.getElem?_eq_some_iff.mp hi
    have hfind : (pySplitSlash u.path).findIdx? (fun s => s == "shops") = some i := by
      rw [List.findIdx?_eq_some_iff_getElem]
      refine ⟨hilt, by simp [higet], fun j hj => ?_⟩
      have hjlt : j < (pySplitSlash u.path).length := Nat.lt_trans hj hilt
      simp only [Bool.not_eq_true, beq_eq_false_iff_ne, ne_eq]
      intro hcon
      exact hminH j hj (List.getElem?_eq_some_iff.mpr ⟨hjlt, hcon⟩)
    simp [build_timetable_url, hfind, hnext]

/-- Concrete check of `build_timetable_url_spec`: the spec's example path
`/ja/shops/takanawa-wharf/reserve` maps to the timetable URL. -/
theorem build_timetable_url_spec_witness :
    build_timetable_url ⟨"https", "www.tablecheck.com", "/ja/shops/takanawa-wharf/reserve"⟩ =
      Except.ok "https://www.tablecheck.com/ja/shops/takanawa-wharf/available/timetable" := by
  have h := (build_timetable_url_spec
    ⟨"https", "www.tablecheck.com", "/ja/shops/takanawa-wharf/reserve"⟩).2 2 "takanawa-wharf"
    (by decide) (by decide) (by decide)
  simpa using h

/-- C9: `sec_to_hm sec` is the zero-padded `sec / 3600` hours and
`(sec % 3600) / 60` minutes joined by a colon, where zero-padding a
non-negative value means one leading `0` exactly when it is a single
digit; in particular `3600 ↦ "01:00"`, `0 ↦ "00:00"`,
`86399 ↦ "23:59"`. -/
theorem sec_to_hm_spec :
    (∀ sec : Nat, sec_to_hm sec =
      (if sec / 3600 < 10 then "0" ++ toString (sec / 3600) else toString (sec / 3600)) ++ ":" ++
      (if sec % 3600 / 60 < 10 then "0" ++ toString (sec % 3600 / 60)
       else toString (sec % 3600 / 60))) ∧
    sec_to_hm 3600 = "01:00" ∧ sec_to_hm 0 = "00:00" ∧ sec_to_hm 86399 = "23:59" :=
  ⟨fun _ => rfl, by decide, by decide, by decide⟩

/-! ## Theorems: slot filter -/

theorem slotFilter_eq_some {ss es v : Int} {e : SlotEntry} :
    slotFilter ss es e = some v ↔
      e.seconds = some v ∧ ss ≤ v ∧ v < es ∧ e.available.getD false = true := by
  rcases e with ⟨sec, avail⟩
  cases sec with
  | none => simp [slotFilter]
  | some s =>
    simp only [slotFilter]
    by_cases h : ss ≤ s ∧ s < es ∧ avail.getD false = true
    · rw [if_pos h]
      simp only [Option.some.injEq]
      constructor
      · rintro rfl
        exact ⟨rfl, h.1, h.2.1, h.2.2⟩
      · rintro ⟨hs, -, -, -⟩
        exact hs
    · rw [if_neg h]
      constructor
      · intro hcon
        exact Option.noConfusion hcon
      · rintro ⟨hs, h1, h2, h3⟩
        obtain rfl : s = v := (Option.some.injEq _ _).mp hs
        exact absurd ⟨h1, h2, h3⟩ h

theorem count_filterMap_eq_countP {α β : Type} [DecidableEq β] (f : α → Option β) (b : β) :
    ∀ l : List α, (l.filterMap f).count b = l.countP (fun a => decide (f a = some b))
  | [] => rfl
  | a :: l => by
    rw [List.filterMap_cons, List.countP_cons]
    cases h : f a with
    | none => simp [h, count_filterMap_eq_countP f b l]
    | some c =>
      rw [List.count_cons, count_filterMap_eq_countP f b l]
      by_cases hc : c = b
      · simp [h, hc]
      · simp [h, hc]

/-- C1: `extract_available_times` returns an ascending-sorted list whose
multiplicity at each value `v` equals the number of slot entries of the
target date carrying seconds `v` inside the half-open range
`[start*3600, end*3600)` with the availability flag true (absent flag
counts as false, entries without seconds are skipped); a value is in the
result iff such an entry exists; on the spec's example the result is
`[64800, 64800]`. -/
theorem extract_available_times_spec :
    (∀ (resp : TimetableResponse) (d : String) (sh eh : Int),
      List.Sorted (· ≤ ·) (extract_available_times resp d sh eh) ∧
      (∀ v : Int, (extract_available_times resp d sh eh).count v =
        (daySlots resp d).countP (fun kv =>
          decide (kv.2.seconds = some v) && decide (sh * 3600 ≤ v) &&
          decide (v < eh * 3600) && kv.2.available.getD false)) ∧
      (∀ v : Int, v ∈ extract_available_times resp d sh eh ↔
        ∃ kv ∈ daySlots resp d, kv.2.seconds = some v ∧
          sh * 3600 ≤ v ∧ v < eh * 3600 ∧ kv.2.available.getD false = true)) ∧
    extract_available_times exampleResponse "2025-12-24" 18 20 = [64800, 64800] := by
  constructor
  · intro resp d sh eh
    refine ⟨List.sorted_insertionSort _ _, ?_, ?_⟩
    · intro v
      have hperm := List.perm_insertionSort (fun a b : Int => a ≤ b)
        ((daySlots resp d).filterMap (fun kv => slotFilter (sh * 3600) (eh * 3600) kv.2))
      rw [extract_available_times, hperm.count_eq,
        count_filterMap_eq_countP (fun kv : String × SlotEntry =>
          slotFilter (sh * 3600) (eh * 3600) kv.2) v]
      refine List.countP_congr ?_
      intro kv _
      simp only [decide_eq_true_eq, Bool.and_eq_true, slotFilter_eq_some, and_assoc]
    · intro v
      rw [extract_available_times]
      rw [List.mem_insertionSort, List.mem_filterMap]
      constructor
      · rintro ⟨kv, hmem, hf⟩
        obtain ⟨h1, h2, h3, h4⟩ := slotFilter_eq_some.mp hf
        exact ⟨kv, hmem, h1, h2, h3, h4⟩
      · rintro ⟨kv, hmem, h1, h2, h3, h4⟩
        exact ⟨kv, hmem, slotFilter_eq_some.mpr ⟨h1, h2, h3, h4⟩⟩
  · decide

/-- C5: a target date absent from the response's slot mapping gives an
empty result, not an error. -/
theorem extract_available_times_missing_date (resp : TimetableResponse) (d : String)
    (sh eh : Int) (h : (slotsByDate resp).lookup d = none) :
    extract_available_times resp d sh eh = [] := by
  simp [extract_available_times, daySlots, h]

/-- Concrete check of `extract_available_times_missing_date`: the example
response has no entry for `2025-12-25`. -/
theorem extract_available_times_missing_date_witness :
    extract_available_times exampleResponse "2025-12-25" 18 20 = [] :=
  extract_available_times_missing_date exampleResponse "2025-12-25" 18 20 (by decide)

/-- C10: a response lacking the top-level `data` key or the nested
`slots` key yields an empty result rather than an error. -/
theorem extract_available_times_missing_keys (resp : TimetableResponse) (d : String)
    (sh eh : Int)
    (h : resp.data = none ∨ ∃ dd, resp.data = some dd ∧ dd.slots = none) :
    extract_available_times resp d sh eh = [] := by
  have hsbd : slotsByDate resp = [] := by
    rcases h with h | ⟨dd, hdd, hslots⟩
    · simp [slotsByDate, h]
    · simp [slotsByDate, hdd, hslots]
  simp [extract_available_times, daySlots, hsbd]

/-- Concrete check of `extract_available_times_missing_keys`: both a
missing `data` key and a missing `slots` key give `[]`. -/
theorem extract_available_times_missing_keys_witness :
    extract_available_times ⟨none⟩ "2025-12-24" 18 20 = [] ∧
    extract_available_times ⟨some ⟨none⟩⟩ "2025-12-24" 18 20 = [] :=
  ⟨extract_available_times_missing_keys ⟨none⟩ "2025-12-24" 18 20 (Or.inl rfl),
   extract_available_times_missing_keys ⟨some ⟨none⟩⟩ "2025-12-24" 18 20
     (Or.inr ⟨⟨none⟩, rfl, rfl⟩)⟩

/-! ## Theorems: availability fetcher -/

/-- Counterexample to C3 as stated: on a success status whose body is the
valid JSON array `[]`, `fetch_timetable` raises nothing and returns the
parsed value unchanged, a non-object — the claimed not-an-object
`ParseError` check does not exist in the code. -/
theorem fetch_timetable_nonobject_counterexample :
    fetch_timetable ⟨200, some (JValue.jarr [])⟩ = Except.ok (JValue.jarr []) ∧
    (JValue.jarr []).isObj = false :=
  ⟨rfl, rfl⟩

/-- C3 (amended): on a success status, `fetch_timetable` fails with a
parse error iff the body is not valid JSON; any valid JSON value,
object or not, is returned as-is. -/
theorem fetch_timetable_parse_spec (resp : HttpResponse) (hok : resp.status < 400) :
    (fetch_timetable resp = Except.error FetchError.parseError ↔ resp.jsonBody = none) ∧
    (∀ v, resp.jsonBody = some v → fetch_timetable resp = Except.ok v) := by
  have hcond : ¬(400 ≤ resp.status ∧ resp.status < 600) := by omega
  rw [fetch_timetable, if_neg hcond]
  cases hjb : resp.jsonBody with
  | none => simp
  | some v => simp

/-- Concrete check of `fetch_timetable_parse_spec`: an invalid body on a
200 response is a parse error, and a valid `null` body is returned. -/
theorem fetch_timetable_parse_spec_witness :
    fetch_timetable ⟨200, none⟩ = Except.error FetchError.parseError ∧
    fetch_timetable ⟨200, some JValue.null⟩ = Except.ok JValue.null :=
  ⟨(fetch_timetable_parse_spec ⟨200, none⟩ (by decide)).1.mpr rfl,
   (fetch_timetable_parse_spec ⟨200, some JValue.null⟩ (by decide)).2 JValue.null rfl⟩

/-! ## Theorems: notifier -/

/-- C6: with an empty token or recipient, `line_push` prints the warning
prefix and the message and returns; no event is the network call. -/
theorem line_push_no_credentials_spec (message token to_user_id : String)
    (post : PostOutcome) (h : token = "" ∨ to_user_id = "") :
    line_push message token to_user_id post =
      [PushEvent.printLine "[WARN] LINE credentials not set; printing message instead:",
       PushEvent.printLine message] ∧
    ∀ ev ∈ line_push message token to_user_id post, ev.isPost = false := by
  unfold line_push
  rw [if_pos h]
  refine ⟨rfl, ?_⟩
  intro ev hev
  rcases List.mem_cons.mp hev with rfl | hev
  · rfl
  · rcases List.mem_singleton.mp hev with rfl
    rfl

/-- Concrete check of `line_push_no_credentials_spec` with an empty
token. -/
theorem line_push_no_credentials_spec_witness :
    line_push "hello" "" "user" (PostOutcome.response 200 "ok") =
      [PushEvent.printLine "[WARN] LINE credentials not set; printing message instead:",
       PushEvent.printLine "hello"] ∧
    ∀ ev ∈ line_push "hello" "" "user" (PostOutcome.response 200 "ok"), ev.isPost = false :=
  line_push_no_credentials_spec "hello" "" "user" (PostOutcome.response 200 "ok") (Or.inl rfl)

/-- C7: with non-empty credentials, a delivery response with status
`>= 300` only adds a warning line naming the status, a transport
exception is caught and logged as a warning, and a success status adds
nothing; in every case `line_push` returns normally (the model is a
total function, so no exception escapes and the run's outcome is
unaffected). -/
theorem line_push_delivery_failure_spec (message token to_user_id : String)
    (htok : token ≠ "") (hto : to_user_id ≠ "") :
    (∀ status text, 300 ≤ status →
      line_push message token to_user_id (PostOutcome.response status text) =
        [PushEvent.httpPost "https://api.line.me/v2/bot/message/push" ("Bearer " ++ token)
           to_user_id message,
         PushEvent.printLine ("[WARN] LINE push failed: " ++ toString status ++ " " ++ text)]) ∧
    (∀ e, line_push message token to_user_id (PostOutcome.exn e) =
        [PushEvent.httpPost "https://api.line.me/v2/bot/message/push" ("Bearer " ++ token)
           to_user_id message,
         PushEvent.printLine ("[WARN] LINE push exception: " ++ e)]) ∧
    (∀ status text, status < 300 →
      line_push message token to_user_id (PostOutcome.response status text) =
        [PushEvent.httpPost "https://api.line.me/v2/bot/message/push" ("Bearer " ++ token)
           to_user_id message]) := by
  have hcond : ¬(token = "" ∨ to_user_id = "") := by
    rintro (h | h)
    · exact htok h
    · exact hto h
  refine ⟨?_, ?_, ?_⟩
  · intro status text h
    unfold line_push
    rw [if_neg hcond]
    simp [h]
  · intro e
    unfold line_push
    rw [if_neg hcond]
  · intro status text h
    unfold line_push
    rw [if_neg hcond]
    simp [Nat.not_le.mpr h]

/-- Concrete check of `line_push_delivery_failure_spec`: a 500 response,
an exception, and a 200 response. -/
theorem line_push_delivery_failure_spec_witness :
    line_push "hello" "tok" "user" (PostOutcome.response 500 "err") =
      [PushEvent.httpPost "https://api.line.me/v2/bot/message/push" ("Bearer " ++ "tok")
         "user" "hello",
       PushEvent.printLine ("[WARN] LINE push failed: " ++ toString 500 ++ " " ++ "err")] ∧
    line_push "hello" "tok" "user" (PostOutcome.exn "boom") =
      [PushEvent.httpPost "https://api.line.me/v2/bot/message/push" ("Bearer " ++ "tok")
         "user" "hello",
       PushEvent.printLine ("[WARN] LINE push exception: " ++ "boom")] ∧
    line_push "hello" "tok" "user" (PostOutcome.response 200 "ok") =
      [PushEvent.httpPost "https://api.line.me/v2/bot/message/push" ("Bearer " ++ "tok")
         "user" "hello"] :=
  ⟨(line_push_delivery_failure_spec "hello" "tok" "user" (by decide) (by decide)).1
      500 "err" (by decide),
   (line_push_delivery_failure_spec "hello" "tok" "user" (by decide) (by decide)).2.1 "boom",
   (line_push_delivery_failure_spec "hello" "tok" "user" (by decide) (by decide)).2.2
      200 "ok" (by decide)⟩

/-! ## Theorems: orchestration -/

theorem foldl_categoryStep_fst (outcomes : List (String × Except String (List Int))) :
    ∀ acc : Bool × List String,
      (outcomes.foldl categoryStep acc).1 = true ↔
        acc.1 = true ∨ ∃ o ∈ outcomes, ¬ categoryNoAvail o.2 := by
  induction outcomes with
  | nil => intro acc; simp
  | cons o rest ih =>
    intro acc
    rw [List.foldl_cons, ih]
    rcases o with ⟨label, res⟩
    cases res with
    | error e => simp [categoryStep, categoryNoAvail]
    | ok times =>
      by_cases hemp : times.isEmpty
      · have : times = [] := List.isEmpty_iff.mp hemp
        simp [categoryStep, hemp, categoryNoAvail, this]
      · have : times ≠ [] := fun hc => hemp (by simp [hc])
        simp [categoryStep, hemp, categoryNoAvail, this]

theorem foldl_categoryStep_snd_ne (outcomes : List (String × Except String (List Int))) :
    ∀ acc : Bool × List String, acc.2 ≠ [] →
      (outcomes.foldl categoryStep acc).2 ≠ [] := by
  induction outcomes with
  | nil => intro acc h; simpa using h
  | cons o rest ih =>
    intro acc h
    rw [List.foldl_cons]
    refine ih _ ?_
    rcases o with ⟨label, res⟩
    cases res with
    | error e => simpa [categoryStep] using h
    | ok times =>
      by_cases hemp : times.isEmpty
      · simpa [categoryStep, hemp] using h
      · simp [categoryStep, hemp]

theorem pyJoin_append_two (sep x y : String) :
    ∀ L : List String, L ≠ [] →
      pyJoin sep (L ++ [x, y]) = pyJoin sep L ++ sep ++ x ++ sep ++ y
  | [], h => absurd rfl h
  | [a], _ => by simp [pyJoin, String.append_assoc]
  | a :: b :: rest, _ => by
    have ih := pyJoin_append_two sep x y (b :: rest) (by simp)
    show a ++ sep ++ pyJoin sep (b :: rest ++ [x, y]) = _
    rw [ih]
    simp [pyJoin, String.append_assoc]

/-- C8: if every seat category reports zero available slots (empty filter
result or caught fetch failure), the run ends with the
`no slots found; no LINE push` log line and the notifier is never
handed a message; if at least one category had availability, the
notifier receives the assembled message, which ends with a blank line
and the reservation URL. -/
theorem main_outcome_spec (header reserve_url : String)
    (outcomes : List (String × Except String (List Int))) :
    ((∀ o ∈ outcomes, categoryNoAvail o.2) →
      main_outcome header reserve_url outcomes =
        MainResult.noSlots "no slots found; no LINE push") ∧
    ((∃ o ∈ outcomes, ¬ categoryNoAvail o.2) →
      ∃ body, main_outcome header reserve_url outcomes =
        MainResult.pushed (body ++ "\n\n" ++ reserve_url)) := by
  constructor
  · intro hall
    have hfst : (outcomes.foldl categoryStep (false, [header])).1 = false := by
      rw [← Bool.not_eq_true, foldl_categoryStep_fst]
      rintro (hc | ⟨o, ho, hno⟩)
      · exact Bool.false_ne_true hc
      · exact hno (hall o ho)
    simp [main_outcome, hfst]
  · rintro ⟨o, ho, hno⟩
    have hfst : (outcomes.foldl categoryStep (false, [header])).1 = true :=
      (foldl_categoryStep_fst outcomes (false, [header])).mpr (Or.inr ⟨o, ho, hno⟩)
    have hsnd : (outcomes.foldl categoryStep (false, [header])).2 ≠ [] :=
      foldl_categoryStep_snd_ne outcomes (false, [header]) (by simp)
    refine ⟨pyJoin "\n" (outcomes.foldl categoryStep (false, [header])).2, ?_⟩
    rw [main_outcome]
    simp only [hfst, if_pos]
    rw [pyJoin_append_two "\n" "" reserve_url _ hsnd]
    rw [String.append_empty,
      String.append_assoc (pyJoin "\n" (outcomes.foldl categoryStep (false, [header])).2)
        "\n" "\n"]
    rfl

/-- Concrete check of `main_outcome_spec`: two zero-availability
categories give the log-only ending; one category with a slot gives a
pushed message ending in a blank line and the URL. -/
theorem main_outcome_spec_witness :
    main_outcome "header" "https://example.com/reserve"
      [("A", Except.ok []), ("B", Except.error "boom")] =
      MainResult.noSlots "no slots found; no LINE push" ∧
    ∃ body, main_outcome "header" "https://example.com/reserve"
      [("A", Except.ok [64800])] =
      MainResult.pushed (body ++ "\n\n" ++ "https://example.com/reserve") :=
  ⟨(main_outcome_spec "header" "https://example.com/reserve"
      [("A", Except.ok []), ("B", Except.error "boom")]).1 (by
        intro o ho
        rcases List.mem_cons.mp ho with rfl | ho
        · simp [categoryNoAvail]
        · rcases List.mem_singleton.mp ho with rfl
          simp [categoryNoAvail]),
   (main_outcome_spec "header" "https://example.com/reserve"
      [("A", Except.ok [64800])]).2
      ⟨("A", Except.ok [64800]), List.mem_singleton.mpr rfl, by simp [categoryNoAvail]⟩⟩

end Watcher
